import Mathlib

/-!
Verification development for `ads2bibdesk.py`.

This file gives a shallow embedding of the reconciliation pipeline of
`ads2bibdesk`: the `difflib`-based duplicate matcher, the PDF fetch with
source fallback and proxy relay, `BibDesk.safe_delete`, and the
preserve / replace / restore phases of `process_token`.  External effects
(AppleScript commands sent to BibDesk, notifications, filesystem changes)
are modelled as explicit operation traces and state records; Python
exceptions are modelled by an error outcome; Python floats are modelled as
exact rationals.
-/

namespace Ads2BibDesk

/-- Python's substring test `needle in hay` on strings. -/
def strContains (hay needle : String) : Bool :=
  (List.range (hay.length + 1)).any (fun i => needle.data.isPrefixOf (hay.data.drop i))

/-- Python `str.endswith`. -/
def strEndsWith (s suf : String) : Bool :=
  suf.data.isSuffixOf s.data

/-- Python `str.lower` (ASCII case folding, which covers every string the
code lowercases). -/
def strToLower (s : String) : String :=
  ⟨s.data.map Char.toLower⟩

/-- Replace the leftmost non-overlapping occurrences of `pat` (never empty
in this code) by `rep`; fuel is the remaining input length, consumed at
least one character per step. -/
def replaceAux (pat rep : List Char) : Nat → List Char → List Char
  | 0, cs => cs
  | fuel + 1, cs =>
    match cs with
    | [] => []
    | c :: rest =>
      if pat.isPrefixOf cs then rep ++ replaceAux pat rep fuel (cs.drop pat.length)
      else c :: replaceAux pat rep fuel rest

/-- Python `str.replace` (all occurrences, left to right). -/
def strReplace (s pat rep : String) : String :=
  ⟨replaceAux pat.data rep.data s.data.length s.data⟩

namespace Difflib

/-- The `(besti, bestj, size)` triple returned by
`SequenceMatcher.find_longest_match`. -/
structure Match where
  besti : Nat
  bestj : Nat
  size : Nat
deriving DecidableEq, Repr

/-- `b2j` of `SequenceMatcher` with `junk = None`: the ascending list of
positions of `c` in `b`.  The autojunk rule (only active for `len(b) >= 200`)
drops elements occurring more than `len(b) // 100 + 1` times. -/
def b2j (b : List Char) (c : Char) : List Nat :=
  let all := (List.range b.length).filter (fun j => b[j]? == some c)
  if 200 ≤ b.length && b.length / 100 + 1 < (b.filter (fun x => x == c)).length
  then [] else all

/-- `a[i] == b[j]`, with both indices in range (difflib only compares at
valid indices). -/
def charEqAt (a b : List Char) (i j : Nat) : Bool :=
  match a[i]?, b[j]? with
  | some x, some y => x == y
  | _, _ => false

/-- Inner loop of `find_longest_match` over the occurrence list of `a[i]`
in `b`: `j < blo` is skipped, `j >= bhi` breaks, otherwise
`k = j2len.get(j-1, 0) + 1` is recorded in the new row and the best match
is updated on a strictly larger `k`. -/
def innerLoop (i blo bhi : Nat) (j2l : Nat → Nat) :
    List Nat → (Nat → Nat) → Match → (Nat → Nat) × Match
  | [], acc, best => (acc, best)
  | j :: js, acc, best =>
    if j < blo then innerLoop i blo bhi j2l js acc best
    else if bhi ≤ j then (acc, best)
    else
      let k := (if j = 0 then 0 else j2l (j - 1)) + 1
      let acc' := fun j' => if j' = j then k else acc j'
      let best' : Match := if best.size < k then ⟨i + 1 - k, j + 1 - k, k⟩ else best
      innerLoop i blo bhi j2l js acc' best'

/-- Outer loop of `find_longest_match` over `i` in `[alo, ahi)`, threading
the `j2len` row.  `a[i]` is read with a default that is never used because
`i` ranges over valid indices of `a`. -/
def outerLoop (a : List Char) (bjs : Char → List Nat) (blo bhi : Nat) :
    List Nat → (Nat → Nat) → Match → Match
  | [], _, best => best
  | i :: is, j2l, best =>
    let c := a.getD i ' '
    let r := innerLoop i blo bhi j2l (bjs c) (fun _ => 0) best
    outerLoop a bjs blo bhi is r.1 r.2

/-- First post-loop `while` of `find_longest_match`: extend the best match
downwards over equal non-junk elements.  With `junk = None` the junk set is
empty, so the junk guard is vacuous and the two junk-extension loops of
difflib never fire.  Each iteration decrements `besti` by exactly one and
requires `alo < besti`, so running with fuel `besti` is the exact loop. -/
def extendLowerAux (a b : List Char) (alo blo : Nat) :
    Nat → Nat → Nat → Nat → Match
  | 0, besti, bestj, size => ⟨besti, bestj, size⟩
  | fuel + 1, besti, bestj, size =>
    if alo < besti ∧ blo < bestj ∧ charEqAt a b (besti - 1) (bestj - 1) = true then
      extendLowerAux a b alo blo fuel (besti - 1) (bestj - 1) (size + 1)
    else ⟨besti, bestj, size⟩

/-- Entry point of the downward extension loop. -/
def extendLower (a b : List Char) (alo blo : Nat) (besti bestj size : Nat) : Match :=
  extendLowerAux a b alo blo besti besti bestj size

/-- Second post-loop `while` of `find_longest_match`: extend the best match
upwards over equal elements.  Each iteration increments `size` and requires
`besti + size < ahi`, so it runs at most `ahi` times; fuel `ahi` is exact. -/
def extendUpperAux (a b : List Char) (ahi bhi : Nat) (besti bestj : Nat) :
    Nat → Nat → Nat
  | 0, size => size
  | fuel + 1, size =>
    if besti + size < ahi ∧ bestj + size < bhi ∧
        charEqAt a b (besti + size) (bestj + size) = true then
      extendUpperAux a b ahi bhi besti bestj fuel (size + 1)
    else size

/-- Entry point of the upward extension loop. -/
def extendUpper (a b : List Char) (ahi bhi : Nat) (besti bestj : Nat) (size : Nat) : Nat :=
  extendUpperAux a b ahi bhi besti bestj ahi size

/-- `SequenceMatcher.find_longest_match(alo, ahi, blo, bhi)` with
`junk = None`. -/
def find_longest_match (a b : List Char) (bjs : Char → List Nat)
    (alo ahi blo bhi : Nat) : Match :=
  let best := outerLoop a bjs blo bhi (List.range' alo (ahi - alo)) (fun _ => 0) ⟨alo, blo, 0⟩
  let low := extendLower a b alo blo best.besti best.bestj best.size
  ⟨low.besti, low.bestj, extendUpper a b ahi bhi low.besti low.bestj low.size⟩

/-- Total size of all matching blocks (the `matches` count of
`SequenceMatcher.ratio`): recursively take the longest match and recurse on
the two remaining corners.  The fuel `|a| + |b| + 1` dominates the recursion
depth, since each split strictly shrinks the combined interval width. -/
def matchSum (a b : List Char) (bjs : Char → List Nat) :
    Nat → Nat → Nat → Nat → Nat → Nat
  | 0, _, _, _, _ => 0
  | fuel + 1, alo, ahi, blo, bhi =>
    let m := find_longest_match a b bjs alo ahi blo bhi
    if m.size = 0 then 0
    else
      m.size + matchSum a b bjs fuel alo m.besti blo m.bestj +
        matchSum a b bjs fuel (m.besti + m.size) ahi (m.bestj + m.size) bhi

/-- `SequenceMatcher(None, sa, sb).ratio()`: `2 * matches / (len(a) + len(b))`,
and `1.0` when both sequences are empty.  The Python float is modelled as an
exact rational, built with `mkRat` so that it evaluates by kernel
reduction. -/
def ratioQ (sa sb : String) : ℚ :=
  let a := sa.data
  let b := sb.data
  let total := a.length + b.length
  if total = 0 then mkRat 1 1
  else mkRat (2 * (matchSum a b (b2j b) (total + 1) 0 a.length 0 b.length) : Int) total

/-- Python tuple comparison `p > q` on `(ratio, string)` pairs, as used by
`heapq.nlargest` inside `get_close_matches` (ties on the ratio fall back to
lexicographic string comparison). -/
def tupleGtB (p q : ℚ × String) : Bool :=
  if q.1 < p.1 then true
  else if p.1 < q.1 then false
  else decide (q.2 < p.2)

/-- One step of Python's `max`: keep the current best unless the next
element is strictly greater. -/
def maxCand (best y : ℚ × String) : ℚ × String :=
  if tupleGtB y best then y else best

/-- `heapq.nlargest(1, result)`: `max` over the scored candidates (first
encountered wins ties), or nothing when the list is empty. -/
def max1 : List (ℚ × String) → Option (ℚ × String)
  | [] => none
  | x :: xs => some (xs.foldl maxCand x)

/-- `difflib.get_close_matches(word, possibilities, n=1, cutoff=0.7)`:
score every possibility, keep those with ratio at least `0.7`, and return
the single largest scored candidate (difflib's `quick_ratio` pre-filters
are upper bounds of `ratio` and do not change the result). -/
def get_close_matches1 (word : String) (possibilities : List String) : List String :=
  let result := possibilities.filterMap (fun x =>
    if mkRat 7 10 ≤ ratioQ x word then some (ratioQ x word, x) else none)
  match max1 result with
  | none => []
  | some p => [p.2]

end Difflib

/-! ## Model of the BibDesk store, the filesystem and the pipeline -/

/-- Python exceptions raised by the pipeline. -/
inductive PyErr
  | nameError (n : String)
  | typeError
  | attributeError
  | indexError
deriving DecidableEq, Repr

/-- AppleScript commands the pipeline sends to BibDesk.
`setFieldOnDocument` is the document-level command produced by the
f-string `f'set value of field "{(k, v)}" to "{pub}"'` at line 245 of the
source: its field name is the repr of the `(k, v)` tuple, its value the
publication id, and it does not address any publication. -/
inductive StoreOp
  | importFrom (bibtex : String)
  | setCiteKeyGenerated (pid : String)
  | setAbstract (pid text : String)
  | addLinkedFileBeginning (pid path : String)
  | autoFile (pid : String)
  | addLinkedUrlEnd (pid url : String)
  | addLinkedFileEnd (pid path : String)
  | setNote (pid text : String)
  | setFieldOnDocument (fieldName value : String)
  | addToGroup (pid group : String)
  | deletePub (pid : String)
deriving DecidableEq, Repr

/-- State of the freshly imported publication as BibDesk holds it: the
abstract is the field named `Abstract` among the others. -/
structure PubState where
  fields : List (String × String)
  note : String
  citeKey : String
  linkedFiles : List String
  linkedUrls : List String
deriving DecidableEq, Repr

/-- A publication with nothing set. -/
def emptyPub : PubState := ⟨[], "", "", [], []⟩

/-- Case-insensitive field update (AppleScript string comparison is
case-insensitive; BibDesk normalises field names): overwrite an existing
field of that name or append a new one. -/
def dictInsertCI (l : List (String × String)) (k v : String) : List (String × String) :=
  if l.any (fun kv => strToLower kv.1 == strToLower k) then
    l.map (fun kv => if strToLower kv.1 == strToLower k then (kv.1, v) else kv)
  else l ++ [(k, v)]

/-- Case-insensitive field read; a missing field reads as the empty string
(the `stringValue()` of the AppleScript reply). -/
def lookupCI (l : List (String × String)) (k : String) : String :=
  ((l.find? (fun kv => strToLower kv.1 == strToLower k)).map (fun kv => kv.2)).getD ""

/-- Python dict assignment `d[k] = v`: case-sensitive, overwrite in place,
append otherwise (insertion order preserved). -/
def dictInsertPy (l : List (String × String)) (k v : String) : List (String × String) :=
  if l.any (fun kv => kv.1 == k) then
    l.map (fun kv => if kv.1 == k then (kv.1, v) else kv)
  else l ++ [(k, v)]

/-- Fields of the fetched ADS record used by `process_token`:
`ads_article.title` and `.author` are lists, `.abstract` may be absent
(`None`). -/
structure AdsArticle where
  title : List String
  author : List String
  abstract : Option String
deriving DecidableEq, Repr

/-- Snapshot of an existing BibDesk entry through the AppleScript accessors
the code uses: author names, stored abstract (empty when missing), field
names and values in order, the note, static groups, and the linked files
with their Skim note texts (either list may contain `None` entries). -/
structure OldData where
  authors : List String
  abstract : String
  fieldNames : List String
  fieldValues : List String
  note : String
  groups : List String
  linkedFiles : List (Option String)
  skimNotes : List (Option String)
deriving DecidableEq, Repr

/-- The open BibDesk document: publication titles in order, and access to
each entry by its title (the code resolves `pid(title)` through the
parallel `titles` / `ids` lists). -/
structure Store where
  titles : List String
  pidOf : String → String
  dataOf : String → OldData

/-- Index of the last occurrence of `c` in `cs`, or `-1` (Python
`str.rfind`). -/
def rfindChar (cs : List Char) (c : Char) : Int :=
  ((List.range cs.length).filter (fun i => cs[i]? == some c)).foldl
    (fun _ i => (i : Int)) (-1)

/-- `os.path.splitext`: split off the extension at the last dot after the
last slash, unless every character between them is a dot. -/
def splitext (p : String) : String × String :=
  let cs := p.data
  let sepIndex := rfindChar cs '/'
  let dotIndex := rfindChar cs '.'
  if sepIndex < dotIndex then
    let d := dotIndex.toNat
    let start := (sepIndex + 1).toNat
    if (List.range' start (d - start)).any (fun k => !(cs[k]? == some '.')) then
      (⟨cs.take d⟩, ⟨cs.drop d⟩)
    else (p, "")
  else (p, "")

/-- Backup name used by `safe_delete`: `path + '_notes_{suffix}.pdf'`. -/
def backupPdfName (path : String) (suffix : Nat) : String :=
  path ++ "_notes_" ++ toString suffix ++ ".pdf"

/-- Companion sidecar backup name: `path + '_notes_{suffix}.skim'`. -/
def backupSkimName (path : String) (suffix : Nat) : String :=
  path ++ "_notes_" ++ toString suffix ++ ".skim"

/-- The `while os.path.exists(backup): suffix += 1` loop of `safe_delete`.
Each iteration increments the suffix once; a filesystem with `n` entries
cannot occupy `n + 1` distinct candidate names, so fuel `n + 1` covers
every run of the Python loop. -/
def bumpSuffix (fs : List String) (path : String) : Nat → Nat → Nat
  | 0, s => s
  | fuel + 1, s =>
    if backupPdfName path s ∈ fs then bumpSuffix fs path fuel (s + 1) else s

/-- First backup suffix whose name is free, starting from 1. -/
def firstFreeSuffix (fs : List String) (path : String) : Nat :=
  bumpSuffix fs path (fs.length + 1) 1

/-- `os.remove`. -/
def fsRemove (fs : List String) (f : String) : List String :=
  fs.filter (fun x => x != f)

/-- `os.rename old new`: the file moves to the new path. -/
def fsRename (fs : List String) (old new : String) : List String :=
  (fs.filter (fun x => x != old)) ++ [new]

/-- State threaded through `safe_delete`'s loop: the filesystem and the
`keptPDFs` accumulator. -/
structure SDState where
  fs : List String
  kept : List String
deriving DecidableEq, Repr

/-- Loop body of `BibDesk.safe_delete` for one `(file, skim-note)` pair:
non-PDF files are untouched; a name containing `_notes_` is kept at its
existing path; a PDF with a non-empty Skim note or a positive
embedded-probe result (`has_annotationss`, modelled by the oracle `ann`)
is renamed to the first free numbered backup name, the `.skim` sidecar
renamed alongside it; any other PDF is removed. -/
def processFilePair (ann : String → Bool) (st : SDState) (f n : String) : SDState :=
  if strEndsWith (strToLower f) "pdf" then
    if strContains f "_notes_" then { st with kept := st.kept ++ [f] }
    else if n ≠ "" ∨ ann f = true then
      let path := (splitext f).1
      let suffix := firstFreeSuffix st.fs path
      let backup := backupPdfName path suffix
      let fs1 := fsRename st.fs f backup
      let fs2 := if (path ++ ".skim") ∈ fs1 then
          fsRename fs1 (path ++ ".skim") (backupSkimName path suffix)
        else fs1
      { fs := fs2, kept := st.kept ++ [backup] }
    else { st with fs := fsRemove st.fs f }
  else st

/-- `BibDesk.safe_delete` without the final `delete` store command (emitted
by the caller): pair the linked files with the Skim notes positionally
after dropping `None` entries from each list independently, fold the loop
body over the pairs, and return the kept paths with the final
filesystem. -/
def safe_delete (ann : String → Bool) (fs0 : List String)
    (files notes : List (Option String)) : List String × List String :=
  let pairs := (files.filterMap id).zip (notes.filterMap id)
  let st := pairs.foldl (fun st p => processFilePair ann st p.1 p.2) ⟨fs0, []⟩
  (st.kept, st.fs)

/-- Escaping applied to the raw bibtex before it is embedded in the
AppleScript `import` command: double backslashes, then escape quotes. -/
def escapeBib (s : String) : String :=
  strReplace (strReplace s "\\" "\\\\") "\"" "\\\""

/-- Escaping applied to the abstract: backslashes, quotes, then each brace
character replaced by a space. -/
def escapeAbs (s : String) : String :=
  strReplace (strReplace (strReplace (strReplace s "\\" "\\\\") "\"" "\\\"") "\x7d" " ") "\x7b" " "

/-- Python `repr` of a pair of plain strings (no quotes or backslashes in
them), as interpolated by the broken f-string at source line 245. -/
def pyPairRepr (k v : String) : String :=
  "('" ++ k ++ "', '" ++ v ++ "')"

/-- Default `gateway_url` of `process_pdf` and `get_gateway`. -/
def gatewayDefault : String := "https://ui.adsabs.harvard.edu/link_gateway"

/-- `get_gateway`: the six gateway URLs as a mapping from the dict keys the
code uses (unknown keys are never queried and give `""`). -/
def get_gateway (identifier gatewayUrl : String) : String → String := fun key =>
  if key = "pub_pdf" then gatewayUrl ++ "/" ++ identifier ++ "/PUB_PDF"
  else if key = "pub_html" then gatewayUrl ++ "/" ++ identifier ++ "/PUB_HTML"
  else if key = "eprint_pdf" then gatewayUrl ++ "/" ++ identifier ++ "/EPRINT_PDF"
  else if key = "eprint_html" then gatewayUrl ++ "/" ++ identifier ++ "/EPRINT_HTML"
  else if key = "ads_pdf" then gatewayUrl ++ "/" ++ identifier ++ "/ADS_PDF"
  else if key = "ads_html" then gatewayUrl ++ "/" ++ identifier ++ "/ADS_SCAN"
  else ""

/-- The `[proxy]` preference section; the sentinel string `"None"` means
unset. -/
structure ProxyPrefs where
  ssh_user : String
  ssh_server : String
  ssh_port : String
deriving DecidableEq, Repr

/-- Network events of one `process_pdf` run: a local download of a URL, or
a proxy relay fetch of the same URL (`get_pdf_ssh`, which overwrites the
locally downloaded temp file with the remote download). -/
inductive FetchEvent
  | download (url : String)
  | proxyFetch (url : String)
deriving DecidableEq, Repr

/-- Whether an event is a proxy relay fetch. -/
def isProxyFetch : FetchEvent → Bool
  | .proxyFetch _ => true
  | _ => false

/-- The source-fallback loop of `process_pdf`: each iteration downloads
`gateway[source + '_pdf']` into a fresh temp file (modelled as
`/tmp/tmp{i}.pdf` for the i-th `mkstemp` call), re-fetches it through the
relay when the proxy is on, and stops at the first source whose file
passes the `'PDF document' in get_filetype(...)` probe; `validates url` is
the oracle for that probe on the bytes downloaded from `url`. -/
def fetchLoop (gw : String → String) (proxyOn : Bool) (validates : String → Bool) :
    List String → Nat → List FetchEvent × String × Bool
  | [], _ => ([], "", false)
  | src :: rest, i =>
    let url := gw (src ++ "_pdf")
    let filename := "/tmp/tmp" ++ toString i ++ ".pdf"
    let evs := FetchEvent.download url ::
      (if proxyOn then [FetchEvent.proxyFetch url] else [])
    if validates url then (evs, filename, true)
    else
      match rest with
      | [] => (evs, filename, false)
      | _ :: _ =>
        let r := fetchLoop gw proxyOn validates rest (i + 1)
        (evs ++ r.1, r.2.1, r.2.2)

/-- `process_pdf(article_identifier, prefs)` with the default source order
`['pub', 'eprint', 'ads']`.  The pre-loop eprint/publisher URL selection of
the source is retained but — exactly as in the code — overwritten inside
the loop before any use.  The relay is on when `ssh_user` and `ssh_server`
are both set; `ssh_port` is passed to the ssh command but never checked. -/
def process_pdf (identifier : String) (prefs : ProxyPrefs) (validates : String → Bool) :
    List FetchEvent × String × Bool :=
  let gw := get_gateway identifier gatewayDefault
  let _pdfUrl0 := if strContains identifier "arXiv" then gw "eprint_pdf" else gw "pub_pdf"
  let proxyOn := (prefs.ssh_user != "None") && (prefs.ssh_server != "None")
  fetchLoop gw proxyOn validates ["pub", "eprint", "ads"] 0

/-- Outcome of `process_token`: the Python return value, or an uncaught
exception. -/
inductive Outcome
  | ok (b : Bool)
  | err (e : PyErr)
deriving DecidableEq, Repr

/-- One run of `process_token`: notifications published, store operations
issued, final state of the new entry, final filesystem, kept PDF paths,
and the outcome. -/
structure RunResult where
  notifs : List (String × String × String)
  ops : List StoreOp
  final : PubState
  fs : List String
  keptPdfs : List String
  outcome : Outcome
deriving DecidableEq, Repr

/-- Duplicate detection (`process_token` lines 162-175): single best title
match at cutoff 0.70; then first-author ratio strictly above 0.60; then
abstract ratio strictly above 0.60 unless the stored abstract is empty.
Empty author lists raise `IndexError` at the `[0]` accesses; a missing ADS
abstract raises `TypeError` inside `SequenceMatcher`. -/
def findDuplicate (t0 : String) (artAuthors : List String) (artAbstract : Option String)
    (store : Store) : Except PyErr (Option String) :=
  match Difflib.get_close_matches1 t0 store.titles with
  | [] => .ok none
  | m :: _ =>
    match (store.dataOf m).authors with
    | [] => .error .indexError
    | oldFirst :: _ =>
      match artAuthors with
      | [] => .error .indexError
      | newFirst :: _ =>
        if mkRat 3 5 < Difflib.ratioQ oldFirst newFirst then
          if (store.dataOf m).abstract = "" then .ok (some m)
          else
            match artAbstract with
            | none => .error .typeError
            | some aa =>
              if mkRat 3 5 < Difflib.ratioQ (store.dataOf m).abstract aa then .ok (some m)
              else .ok none
        else .ok none

/-- Output of the Preserving phase. -/
structure PreserveOut where
  keptFields : List (String × String)
  keptGroups : List String
  keptPdfs : List String
  fs : List String
  ops : List StoreOp
  notifs : List (String × String × String)
deriving DecidableEq, Repr

/-- Preserving (`process_token` lines 176-193): capture the groups, the
fields except `Adscomment`, the note under the `BibDeskAnnotation` key,
then `safe_delete` the old entry and notify about the removal. -/
def preserve (identifier t0 m : String) (store : Store) (ann : String → Bool)
    (fs0 : List String) : PreserveOut :=
  let d := store.dataOf m
  let kf0 := (d.fieldNames.zip d.fieldValues).filter (fun kv => kv.1 != "Adscomment")
  let kf := dictInsertPy kf0 "BibDeskAnnotation" d.note
  let sd := safe_delete ann fs0 d.linkedFiles d.skimNotes
  { keptFields := kf, keptGroups := d.groups, keptPdfs := sd.1, fs := sd.2,
    ops := [.deletePub (store.pidOf m)],
    notifs := [("Duplicate publication removed", identifier, t0)] }

/-- Effect of one store operation on the new publication's state.  The
document-level `setFieldOnDocument` command does not address the
publication and leaves it unchanged; group membership lives only in the
operation trace. -/
def applyPubOp (genKey : String) (st : PubState) : StoreOp → PubState
  | .importFrom _ => st
  | .setCiteKeyGenerated _ => { st with citeKey := genKey }
  | .setAbstract _ t => { st with fields := dictInsertCI st.fields "Abstract" t }
  | .addLinkedFileBeginning _ p => { st with linkedFiles := p :: st.linkedFiles }
  | .autoFile _ => st
  | .addLinkedUrlEnd _ u => { st with linkedUrls := st.linkedUrls ++ [u] }
  | .addLinkedFileEnd _ p => { st with linkedFiles := st.linkedFiles ++ [p] }
  | .setNote _ t => { st with note := t }
  | .setFieldOnDocument _ _ => st
  | .addToGroup _ _ => st
  | .deletePub _ => st

/-- Replacing, PDF/URL attachment (`process_token` lines 211-219): link the
fetched file at the beginning of the linked files and auto-file it when
its name ends in `.pdf` and it validated; otherwise add the file path
itself as a linked URL when it contains `http` and the `doi` field read
from the new entry is empty. -/
def attachOps (pub pdfFilename : String) (pdfStatus : Bool) (doi : String) : List StoreOp :=
  if strEndsWith pdfFilename ".pdf" && pdfStatus then
    [.addLinkedFileBeginning pub pdfFilename, .autoFile pub]
  else if strContains pdfFilename "http" && (doi == "") then
    [.addLinkedUrlEnd pub pdfFilename]
  else []

/-- Replacing, URL loop (`process_token` lines 230-233): add every element
of `urls` that is not in `urlspub`, the snapshot of the linked URLs taken
once before the loop. -/
def urlLoopOps (pub : String) (urls urlspub : List String) : List StoreOp :=
  (urls.filter (fun u => !(urlspub.contains u))).map (fun u => .addLinkedUrlEnd pub u)

/-- Restoring, field loop (`process_token` lines 240-245): drop the
`BibDeskAnnotation` entry (the `pop`), skip every preserved field whose
name is already on the new entry, and emit — verbatim from the broken
f-string — a document-level command whose field name is the Python repr of
the `(k, v)` tuple and whose value is the publication id. -/
def restoreFieldOps (pub : String) (keptFields : List (String × String))
    (newFields : List String) : List StoreOp :=
  ((keptFields.filter (fun kv => kv.1 != "BibDeskAnnotation")).filter
      (fun kv => !(newFields.contains kv.1))).map
    (fun kv => .setFieldOnDocument (pyPairRepr kv.1 kv.2) pub)

/-- Restoring, groups (`process_token` lines 254-255 with
`BibDesk.add_groups`): when any groups were preserved, add the new entry
to each of them, with no membership check. -/
def groupRestoreOps (pub : String) (keptGroups : List String) : List StoreOp :=
  if keptGroups = [] then [] else keptGroups.map (fun g => .addToGroup pub g)

/-- Output of the Replacing and Restoring phases, with the point of failure
when an exception interrupts them. -/
structure ReplaceOut where
  ops : List StoreOp
  final : PubState
  notifs : List (String × String × String)
  err : Option PyErr
deriving DecidableEq, Repr

/-- Replacing and Restoring (`process_token` lines 196-255): import the
escaped bibtex, set the generated cite key, escape and set the abstract
(`AttributeError` when the fetched record has none), read `doi`, attach
the PDF or URL, add the values of URL-type fields (plus the eprint landing
page for arXiv identifiers) not already linked, re-link the kept PDFs,
restore the note, run the preserved-field loop, notify, and re-add the
groups. -/
def replaceRestore (identifier t0 : String) (art : AdsArticle) (bibtex : String)
    (pdf : String × Bool) (imported : PubState) (pub genKey : String)
    (keptFields : List (String × String)) (keptGroups : List String)
    (keptPdfs : List String) : ReplaceOut :=
  let ops0 : List StoreOp := [.importFrom (escapeBib bibtex), .setCiteKeyGenerated pub]
  let st1 := ops0.foldl (applyPubOp genKey) imported
  match art.abstract with
  | none => ⟨ops0, st1, [], some .attributeError⟩
  | some abstractText =>
    let ops1 : List StoreOp := [.setAbstract pub (escapeAbs abstractText)]
    let st2 := ops1.foldl (applyPubOp genKey) st1
    let doi := lookupCI st2.fields "doi"
    let aOps := attachOps pub pdf.1 pdf.2 doi
    let st3 := aOps.foldl (applyPubOp genKey) st2
    let urls0 := (st3.fields.filter (fun kv => strEndsWith (strToLower kv.1) "url")).map
      (fun kv => kv.2)
    let urls := if strContains identifier "arXiv" then
        urls0 ++ [get_gateway identifier gatewayDefault "eprint_html"]
      else urls0
    let uOps := urlLoopOps pub urls st3.linkedUrls
    let st4 := uOps.foldl (applyPubOp genKey) st3
    let kOps := keptPdfs.map (fun p => StoreOp.addLinkedFileEnd pub p)
    let st5 := kOps.foldl (applyPubOp genKey) st4
    let ann0 := ((keptFields.find? (fun kv => kv.1 == "BibDeskAnnotation")).map
      (fun kv => kv.2)).getD ""
    let nOps : List StoreOp := [.setNote pub ann0]
    let st6 := nOps.foldl (applyPubOp genKey) st5
    let newFields := st6.fields.map (fun kv => kv.1)
    let fOps := restoreFieldOps pub keptFields newFields
    let st7 := fOps.foldl (applyPubOp genKey) st6
    let gOps := groupRestoreOps pub keptGroups
    ⟨ops0 ++ ops1 ++ aOps ++ uOps ++ kOps ++ nOps ++ fOps ++ gOps, st7,
     [("New publication added", genKey, t0)], none⟩

/-- The main path of `process_token` once a unique metadata record was
found: duplicate matching, preserving, replacing, restoring. -/
def mainPath (identifier : String) (art : AdsArticle) (bibtex : String) (store : Store)
    (ann : String → Bool) (fs0 : List String) (pdf : String × Bool)
    (imported : PubState) (pub genKey : String) : RunResult :=
  match art.title with
  | [] => ⟨[], [], emptyPub, fs0, [], .err .indexError⟩
  | t0 :: _ =>
    match findDuplicate t0 art.author art.abstract store with
    | .error e => ⟨[], [], emptyPub, fs0, [], .err e⟩
    | .ok none =>
      let r := replaceRestore identifier t0 art bibtex pdf imported pub genKey [] [] []
      ⟨r.notifs, r.ops, r.final, fs0, [],
       match r.err with | some e => .err e | none => .ok true⟩
    | .ok (some m) =>
      let p := preserve identifier t0 m store ann fs0
      let r := replaceRestore identifier t0 art bibtex pdf imported pub genKey
        p.keptFields p.keptGroups p.keptPdfs
      ⟨p.notifs ++ r.notifs, p.ops ++ r.ops, r.final, p.fs, p.keptPdfs,
       match r.err with | some e => .err e | none => .ok true⟩

/-- `process_token`: when the metadata lookup returned anything other than
exactly one record the code notifies, then crashes with `NameError` on the
misspelled variable `article_identifiern` in the following logging call
(source line 138) instead of reaching `return False`; otherwise the main
path runs.  `pdf` is the `process_pdf` result, `imported` the entry the
bibtex import created, `pub` its id and `genKey` the generated cite key. -/
def process_token (identifier : String) (articles : List AdsArticle) (bibtex : String)
    (store : Store) (ann : String → Bool) (fs0 : List String) (pdf : String × Bool)
    (imported : PubState) (pub genKey : String) : RunResult :=
  match articles with
  | [art] => mainPath identifier art bibtex store ann fs0 pdf imported pub genKey
  | _ =>
    ⟨[("Found Zero or Multiple ADS antries for ", identifier, " No update in BibDesk")],
     [], emptyPub, fs0, [], .err (.nameError "article_identifiern")⟩

/-- Empty-document fixture used by the witnesses. -/
def storeEmptyFix : Store :=
  ⟨[], fun _ => "", fun _ => ⟨["Author, A."], "", [], [], "", [], [], []⟩⟩

/-- One-entry document fixture (empty stored abstract) used by the
witnesses of the matcher gates. -/
def storeGateFix : Store :=
  ⟨["Title A"], fun _ => "pid-1", fun _ => ⟨["Smith, J."], "", [], [], "", [], [], []⟩⟩

/-- Imported-entry fixture whose two url-type fields hold the same
value. -/
def importedUrlFix : PubState :=
  ⟨[("Url", "http://x"), ("Adsurl", "http://x")], "", "", [], []⟩

/-! ## Theorems -/

namespace Difflib

theorem tupleGtB_true_le (p q : ℚ × String) (h : tupleGtB p q = true) : q.1 ≤ p.1 := by
  unfold tupleGtB at h
  split_ifs at h with h1 h2
  · exact le_of_lt h1
  · exact le_of_not_lt h2

theorem tupleGtB_false_le (p q : ℚ × String) (h : tupleGtB p q = false) : p.1 ≤ q.1 := by
  unfold tupleGtB at h
  split_ifs at h with h1 h2
  · exact le_of_lt h2
  · exact le_of_not_lt h1

theorem maxCand_fst_ge (x y : ℚ × String) :
    x.1 ≤ (maxCand x y).1 ∧ y.1 ≤ (maxCand x y).1 := by
  unfold maxCand
  by_cases hb : tupleGtB y x = true
  · rw [if_pos hb]
    exact ⟨tupleGtB_true_le y x hb, le_refl _⟩
  · rw [if_neg hb]
    rw [Bool.not_eq_true] at hb
    exact ⟨le_refl _, tupleGtB_false_le y x hb⟩

theorem foldl_maxCand_mem (xs : List (ℚ × String)) (x : ℚ × String) :
    xs.foldl maxCand x = x ∨ xs.foldl maxCand x ∈ xs := by
  induction xs generalizing x with
  | nil => exact Or.inl rfl
  | cons y ys ih =>
    rw [List.foldl_cons]
    rcases ih (maxCand x y) with h | h
    · rw [h]
      unfold maxCand
      split_ifs with hb
      · exact Or.inr (List.mem_cons_self _ _)
      · exact Or.inl rfl
    · exact Or.inr (List.mem_cons_of_mem _ h)

theorem foldl_maxCand_ge (xs : List (ℚ × String)) (x : ℚ × String) :
    x.1 ≤ (xs.foldl maxCand x).1 ∧ ∀ q ∈ xs, q.1 ≤ (xs.foldl maxCand x).1 := by
  induction xs generalizing x with
  | nil => exact ⟨le_refl _, by intro q hq; cases hq⟩
  | cons y ys ih =>
    rw [List.foldl_cons]
    obtain ⟨h1, h2⟩ := ih (maxCand x y)
    obtain ⟨hx, hy⟩ := maxCand_fst_ge x y
    refine ⟨le_trans hx h1, ?_⟩
    intro q hq
    rcases List.mem_cons.mp hq with rfl | hq'
    · exact le_trans hy h1
    · exact h2 q hq'

theorem max1_eq_none {l : List (ℚ × String)} (h : max1 l = none) : l = [] := by
  cases l with
  | nil => rfl
  | cons x xs => simp [max1] at h

theorem max1_eq_some_mem {l : List (ℚ × String)} {p : ℚ × String}
    (h : max1 l = some p) : p ∈ l := by
  cases l with
  | nil => simp [max1] at h
  | cons x xs =>
    simp only [max1, Option.some.injEq] at h
    rcases foldl_maxCand_mem xs x with h' | h'
    · rw [← h, h']
      exact List.mem_cons_self _ _
    · rw [← h]
      exact List.mem_cons_of_mem _ h'

theorem max1_eq_some_ge {l : List (ℚ × String)} {p : ℚ × String}
    (h : max1 l = some p) : ∀ q ∈ l, q.1 ≤ p.1 := by
  cases l with
  | nil => simp [max1] at h
  | cons x xs =>
    simp only [max1, Option.some.injEq] at h
    intro q hq
    rw [← h]
    rcases List.mem_cons.mp hq with rfl | hq'
    · exact (foldl_maxCand_ge xs q).1
    · exact (foldl_maxCand_ge xs x).2 q hq'

/-- Defining equation of `get_close_matches1`, exposing the scored candidate
list. -/
theorem get_close_matches1_eq (word : String) (titles : List String) :
    get_close_matches1 word titles =
      match max1 (titles.filterMap (fun x =>
        if mkRat 7 10 ≤ ratioQ x word then some (ratioQ x word, x) else none)) with
      | none => []
      | some p => [p.2] := rfl

theorem mkRat_seven_tenths : (mkRat 7 10 : ℚ) = 7/10 := by
  rw [Rat.mkRat_eq_div]
  norm_num

theorem get_close_matches1_of_max1_none (word : String) (titles : List String)
    (h : max1 (titles.filterMap fun x =>
      if mkRat 7 10 ≤ ratioQ x word then some (ratioQ x word, x) else none) = none) :
    get_close_matches1 word titles = [] := by
  rw [get_close_matches1_eq, h]

theorem get_close_matches1_of_max1_some (word : String) (titles : List String)
    (p : ℚ × String)
    (h : max1 (titles.filterMap fun x =>
      if mkRat 7 10 ≤ ratioQ x word then some (ratioQ x word, x) else none) = some p) :
    get_close_matches1 word titles = [p.2] := by
  rw [get_close_matches1_eq, h]

end Difflib

/-- C2: the title gate considers at most one candidate — the single closest
existing title to the new record's title under `SequenceMatcher.ratio` —
and returns it exactly when its ratio is at least 0.70; a ratio of exactly
0.70 is accepted, any smaller ratio (such as 0.69) is rejected, and if no
existing title reaches 0.70 nothing is returned. -/
theorem title_gate_characterization (word : String) (titles : List String) :
    (Difflib.get_close_matches1 word titles = [] ↔
      ∀ t ∈ titles, Difflib.ratioQ t word < 7/10) ∧
    (∀ m, Difflib.get_close_matches1 word titles = [m] →
      m ∈ titles ∧ (7 : ℚ)/10 ≤ Difflib.ratioQ m word ∧
        ∀ t ∈ titles, Difflib.ratioQ t word ≤ Difflib.ratioQ m word) ∧
    (Difflib.get_close_matches1 word titles).length ≤ 1 := by
  have hc : (mkRat 7 10 : ℚ) = 7/10 := Difflib.mkRat_seven_tenths
  have hmemf : ∀ q : ℚ × String,
      q ∈ (titles.filterMap fun x =>
        if mkRat 7 10 ≤ Difflib.ratioQ x word then some (Difflib.ratioQ x word, x) else none) →
      q.2 ∈ titles ∧ q.1 = Difflib.ratioQ q.2 word ∧ (7:ℚ)/10 ≤ Difflib.ratioQ q.2 word := by
    intro q hq
    rcases List.mem_filterMap.mp hq with ⟨t, ht, hft⟩
    by_cases hcut : mkRat 7 10 ≤ Difflib.ratioQ t word
    · rw [if_pos hcut] at hft
      cases hft
      exact ⟨ht, rfl, hc ▸ hcut⟩
    · rw [if_neg hcut] at hft
      cases hft
  have hmemf' : ∀ t ∈ titles, (7:ℚ)/10 ≤ Difflib.ratioQ t word →
      (Difflib.ratioQ t word, t) ∈ (titles.filterMap fun x =>
        if mkRat 7 10 ≤ Difflib.ratioQ x word then some (Difflib.ratioQ x word, x) else none) := by
    intro t ht hge
    refine List.mem_filterMap.mpr ⟨t, ht, ?_⟩
    rw [if_pos (by rw [hc]; exact hge)]
  rcases hres : Difflib.max1 (titles.filterMap fun x =>
      if mkRat 7 10 ≤ Difflib.ratioQ x word then some (Difflib.ratioQ x word, x) else none)
    with _ | p
  · have hget := Difflib.get_close_matches1_of_max1_none word titles hres
    have hnil := Difflib.max1_eq_none hres
    refine ⟨⟨fun _ t ht => ?_, fun _ => hget⟩, fun m hm => ?_, ?_⟩
    · by_contra hge
      push_neg at hge
      have := hmemf' t ht hge
      rw [hnil] at this
      cases this
    · rw [hget] at hm
      cases hm
    · rw [hget]
      simp
  · have hget := Difflib.get_close_matches1_of_max1_some word titles p hres
    obtain ⟨hpmem, hpeq, hpge⟩ := hmemf p (Difflib.max1_eq_some_mem hres)
    have hmax := Difflib.max1_eq_some_ge hres
    refine ⟨⟨fun h => ?_, fun h => ?_⟩, fun m hm => ?_, ?_⟩
    · rw [hget] at h
      cases h
    · exact absurd hpge (not_le.mpr (h p.2 hpmem))
    · rw [hget] at hm
      cases hm
      refine ⟨hpmem, hpge, fun t ht => ?_⟩
      by_cases hcut : (7:ℚ)/10 ≤ Difflib.ratioQ t word
      · have := hmax (Difflib.ratioQ t word, t) (hmemf' t ht hcut)
        rw [hpeq] at this
        exact this
      · exact le_trans (le_of_lt (not_le.mp hcut)) hpge
    · rw [hget]
      simp

/-- Witness for C2: a concrete boundary input whose best ratio is exactly
0.70 (14 matched characters over total length 20) is accepted as the
single candidate. -/
theorem title_gate_characterization_witness :
    "abcdefgxxx" ∈ ["abcdefgxxx"] ∧ (7:ℚ)/10 ≤ Difflib.ratioQ "abcdefgxxx" "abcdefgyyy" :=
  have h := (title_gate_characterization "abcdefgyyy" ["abcdefgxxx"]).2.1 "abcdefgxxx" (by decide)
  ⟨h.1, h.2.1⟩

/-- C3: given the single title-gate candidate `m`, the duplicate matcher
confirms `m` exactly when the first-author ratio is strictly greater than
0.60 and the stored abstract is empty (vacuous abstract gate) or the
abstract ratio is strictly greater than 0.60; when either gate fails it
reports no duplicate, and no candidate other than `m` is ever returned. -/
theorem author_abstract_gate (t0 : String) (artAuthors : List String) (aa : String)
    (store : Store) (m oldFirst newFirst : String)
    (hfound : Difflib.get_close_matches1 t0 store.titles = [m])
    (h1 : (store.dataOf m).authors.head? = some oldFirst)
    (h2 : artAuthors.head? = some newFirst) :
    (findDuplicate t0 artAuthors (some aa) store = .ok (some m) ↔
      ((3:ℚ)/5 < Difflib.ratioQ oldFirst newFirst ∧
        ((store.dataOf m).abstract = "" ∨
          (3:ℚ)/5 < Difflib.ratioQ (store.dataOf m).abstract aa))) ∧
    (findDuplicate t0 artAuthors (some aa) store = .ok (some m) ∨
      findDuplicate t0 artAuthors (some aa) store = .ok none) := by
  have hc : (mkRat 3 5 : ℚ) = 3/5 := by
    rw [Rat.mkRat_eq_div]
    norm_num
  unfold findDuplicate
  simp only [hfound]
  cases ho : (store.dataOf m).authors with
  | nil =>
    rw [ho] at h1
    cases h1
  | cons of rest =>
    rw [ho] at h1
    have hof : of = oldFirst := by simpa using h1
    subst hof
    simp only [ho]
    cases ha2 : artAuthors with
    | nil =>
      rw [ha2] at h2
      cases h2
    | cons nf rest2 =>
      rw [ha2] at h2
      have hnf : nf = newFirst := by simpa using h2
      subst hnf
      simp only [ha2]
      by_cases hg1 : mkRat 3 5 < Difflib.ratioQ of nf
      · by_cases hg2 : (store.dataOf m).abstract = ""
        · rw [if_pos hg1, if_pos hg2]
          exact ⟨⟨fun _ => ⟨hc ▸ hg1, Or.inl hg2⟩, fun _ => rfl⟩, Or.inl rfl⟩
        · by_cases hg3 : mkRat 3 5 < Difflib.ratioQ (store.dataOf m).abstract aa
          · rw [if_pos hg1, if_neg hg2, if_pos hg3]
            exact ⟨⟨fun _ => ⟨hc ▸ hg1, Or.inr (hc ▸ hg3)⟩, fun _ => rfl⟩, Or.inl rfl⟩
          · rw [if_pos hg1, if_neg hg2, if_neg hg3]
            refine ⟨⟨fun h => ?_, fun h => ?_⟩, Or.inr rfl⟩
            · simp at h
            · rcases h.2 with h2' | h2'
              · exact absurd h2' hg2
              · exact absurd (hc ▸ h2') hg3
      · rw [if_neg hg1]
        refine ⟨⟨fun h => ?_, fun h => ?_⟩, Or.inr rfl⟩
        · simp at h
        · exact absurd (hc ▸ h.1) hg1

/-- Witness for C3: the matcher applied to a concrete one-entry store
either confirms the candidate or reports no duplicate. -/
theorem author_abstract_gate_witness :
    findDuplicate "Title A" ["Smith, J."] (some "An abstract.") storeGateFix =
        .ok (some "Title A") ∨
    findDuplicate "Title A" ["Smith, J."] (some "An abstract.") storeGateFix = .ok none :=
  (author_abstract_gate "Title A" ["Smith, J."] "An abstract." storeGateFix
    "Title A" "Smith, J." "Smith, J." (by decide) (by decide) (by decide)).2

/-- C4 (code bug): with zero metadata lookup results the code publishes the
`No update in BibDesk` notification and performs no store operation, but
then raises `NameError` on the misspelled variable `article_identifiern`
(source line 138) instead of returning the unsuccessful status `False`. -/
theorem lookup_mismatch_crash :
    process_token "2019arXiv190404507R" [] "bib" storeEmptyFix (fun _ => false) []
      ("/tmp/tmp0.pdf", false) emptyPub "pub-1" "key-1" =
    ⟨[("Found Zero or Multiple ADS antries for ", "2019arXiv190404507R",
        " No update in BibDesk")],
      [], emptyPub, [], [], .err (.nameError "article_identifiern")⟩ := rfl

theorem replaceRestore_err_of_none (identifier t0 : String) (art : AdsArticle)
    (bibtex : String) (pdf : String × Bool) (imported : PubState) (pub genKey : String)
    (kf : List (String × String)) (kg kp : List String)
    (habs : art.abstract = none) :
    (replaceRestore identifier t0 art bibtex pdf imported pub genKey kf kg kp).err =
      some .attributeError := by
  unfold replaceRestore
  rw [habs]

theorem findDuplicate_none_abstract (t0 : String) (aus : List String) (store : Store)
    (ha : aus ≠ []) (hstore : ∀ m, (store.dataOf m).authors ≠ []) :
    (∃ m, findDuplicate t0 aus none store = .ok (some m)) ∨
    findDuplicate t0 aus none store = .ok none ∨
    findDuplicate t0 aus none store = .error .typeError := by
  unfold findDuplicate
  cases hg : Difflib.get_close_matches1 t0 store.titles with
  | nil => exact Or.inr (Or.inl rfl)
  | cons m rest =>
    cases ho : (store.dataOf m).authors with
    | nil => exact absurd ho (hstore m)
    | cons of orest =>
      cases ha2 : aus with
      | nil => exact absurd ha2 ha
      | cons nf nrest =>
        by_cases hg1 : mkRat 3 5 < Difflib.ratioQ of nf
        · by_cases hg2 : (store.dataOf m).abstract = ""
          · exact Or.inl ⟨m, by simp [ho, if_pos hg1, if_pos hg2]⟩
          · exact Or.inr (Or.inr (by simp [ho, if_pos hg1, if_neg hg2]))
        · exact Or.inr (Or.inl (by simp [ho, if_neg hg1]))

/-- C10: a present (non-`None`) abstract on the fetched record is an
undocumented precondition of `process_token`: whenever the abstract is
absent, the run ends in an exception — `TypeError` inside the abstract
gate when the matched entry's stored abstract is non-empty, or
`AttributeError` at the abstract-escaping step of Replacing — never in a
normal return. -/
theorem missing_abstract_raises (identifier : String) (art : AdsArticle) (bibtex : String)
    (store : Store) (ann : String → Bool) (fs0 : List String) (pdf : String × Bool)
    (imported : PubState) (pub genKey : String)
    (habs : art.abstract = none) (ht : art.title ≠ [])
    (ha : art.author ≠ []) (hstore : ∀ m, (store.dataOf m).authors ≠ []) :
    (process_token identifier [art] bibtex store ann fs0 pdf imported pub genKey).outcome =
      .err .typeError ∨
    (process_token identifier [art] bibtex store ann fs0 pdf imported pub genKey).outcome =
      .err .attributeError := by
  cases htl : art.title with
  | nil => exact absurd htl ht
  | cons t0 ts =>
    have herr := replaceRestore_err_of_none identifier t0 art bibtex pdf imported pub
      genKey
    rcases findDuplicate_none_abstract t0 art.author store ha hstore
      with ⟨m, hm⟩ | hm | hm
    · refine Or.inr ?_
      simp only [process_token, mainPath, htl, habs, hm, herr _ _ _ habs]
    · refine Or.inr ?_
      simp only [process_token, mainPath, htl, habs, hm, herr _ _ _ habs]
    · refine Or.inl ?_
      simp only [process_token, mainPath, htl, habs, hm]

/-- Witness for C10: a concrete record without an abstract makes the run
end in one of the two exceptions. -/
theorem missing_abstract_raises_witness :
    (process_token "2019arXiv190404507R" [⟨["Title A"], ["Smith, J."], none⟩] "bib"
      storeEmptyFix (fun _ => false) [] ("/tmp/tmp0.pdf", false) emptyPub "pub-1"
      "key-1").outcome = .err .typeError ∨
    (process_token "2019arXiv190404507R" [⟨["Title A"], ["Smith, J."], none⟩] "bib"
      storeEmptyFix (fun _ => false) [] ("/tmp/tmp0.pdf", false) emptyPub "pub-1"
      "key-1").outcome = .err .attributeError :=
  missing_abstract_raises "2019arXiv190404507R" ⟨["Title A"], ["Smith, J."], none⟩ "bib"
    storeEmptyFix (fun _ => false) [] ("/tmp/tmp0.pdf", false) emptyPub "pub-1" "key-1"
    rfl (by decide) (by decide) (fun _ => List.cons_ne_nil _ _)

/-- C1 (code bug): the Restoring field loop, run with the preserved field
`Rating = 5` and no field names on the new entry, emits only the
document-level command `set value of field "('Rating', '5')" to "pub-1"`
produced by the broken f-string; applying the loop's operations to the new
entry leaves its field map empty — the preserved field is never set. -/
theorem restore_fields_bug :
    restoreFieldOps "pub-1" [("Rating", "5")] [] =
      [StoreOp.setFieldOnDocument "('Rating', '5')" "pub-1"] ∧
    ((restoreFieldOps "pub-1" [("Rating", "5")] []).foldl
        (applyPubOp "key-1") emptyPub).fields = [] := by
  decide

theorem bumpSuffix_spec (fs : List String) (path : String) :
    ∀ fuel s, (∃ t, s ≤ t ∧ t < s + fuel ∧ backupPdfName path t ∉ fs) →
      backupPdfName path (bumpSuffix fs path fuel s) ∉ fs := by
  intro fuel
  induction fuel with
  | zero =>
    rintro s ⟨t, h1, h2, _⟩
    omega
  | succ n ih =>
    rintro s ⟨t, h1, h2, h3⟩
    unfold bumpSuffix
    by_cases hmem : backupPdfName path s ∈ fs
    · rw [if_pos hmem]
      refine ih (s + 1) ⟨t, ?_, by omega, h3⟩
      rcases Nat.eq_or_lt_of_le h1 with heq | hlt
      · exfalso
        rw [← heq] at h3
        exact h3 hmem
      · omega
    · rw [if_neg hmem]
      exact hmem

theorem backupPdfName_ne_skim (path : String) (s : Nat) :
    backupPdfName path s ≠ path ++ ".skim" := by
  intro h
  have hd : (backupPdfName path s).data = (path ++ ".skim").data := congrArg String.data h
  unfold backupPdfName at hd
  simp only [String.data_append, List.append_assoc] at hd
  have h2 := List.append_cancel_left hd
  simp only [List.cons_append] at h2
  injection h2 with hc _
  exact absurd hc (by decide)

theorem mem_fsRename_new (fs : List String) (old new : String) :
    new ∈ fsRename fs old new :=
  List.mem_append_right _ (List.mem_singleton.mpr rfl)

theorem mem_fsRename_other (fs : List String) (old new x : String)
    (hx : x ∈ fs) (hne : x ≠ old) : x ∈ fsRename fs old new := by
  refine List.mem_append_left _ (List.mem_filter.mpr ⟨hx, ?_⟩)
  simpa using hne

theorem mem_skimStep (fs1 : List String) (skim skimB b : String)
    (hb : b ∈ fs1) (hne : b ≠ skim) :
    b ∈ (if skim ∈ fs1 then fsRename fs1 skim skimB else fs1) := by
  by_cases h : skim ∈ fs1
  · rw [if_pos h]
    exact mem_fsRename_other fs1 skim skimB b hb hne
  · rw [if_neg h]
    exact hb

theorem mem_skimStep_new (fs1 : List String) (skim skimB : String)
    (h : skim ∈ fs1) :
    skimB ∈ (if skim ∈ fs1 then fsRename fs1 skim skimB else fs1) := by
  rw [if_pos h]
  exact mem_fsRename_new fs1 skim skimB

/-- C5 counterexample: a linked PDF whose name already bears `_notes_` is
returned at its pre-existing path, with the filesystem untouched —
`safe_delete` does not rename it aside to a previously non-existing backup
path as the claim states. -/
theorem safe_delete_notes_counterexample :
    (safe_delete (fun _ => false) ["/a/b_notes_1.pdf"] [some "/a/b_notes_1.pdf"]
      [some ""]).1 = ["/a/b_notes_1.pdf"] ∧
    (safe_delete (fun _ => false) ["/a/b_notes_1.pdf"] [some "/a/b_notes_1.pdf"]
      [some ""]).2 = ["/a/b_notes_1.pdf"] ∧
    "/a/b_notes_1.pdf" ∈ (["/a/b_notes_1.pdf"] : List String) := by
  decide

/-- C5 amended: for each (file, Skim note) pair the loop visits, a PDF
whose name already contains `_notes_` is kept at its existing path without
renaming; a PDF with a non-empty Skim note or a positive annotation probe
is renamed to the first free numbered backup path — a path that did not
previously exist — with its `.skim` sidecar renamed alongside it, and that
new path is returned; only a PDF with neither mark is deleted.  (The pairs
come from zipping the two `None`-filtered lists, and the backup-name
search space `1 .. |fs|+1` always contains a free suffix, stated here as a
hypothesis.) -/
theorem safe_delete_step_amended (ann : String → Bool) (st : SDState) (f n : String)
    (hpdf : strEndsWith (strToLower f) "pdf" = true)
    (hfree : ∃ t, 1 ≤ t ∧ t < st.fs.length + 2 ∧
      backupPdfName (splitext f).1 t ∉ st.fs) :
    (strContains f "_notes_" = true →
      processFilePair ann st f n = { st with kept := st.kept ++ [f] }) ∧
    (strContains f "_notes_" = false → (n ≠ "" ∨ ann f = true) →
      backupPdfName (splitext f).1 (firstFreeSuffix st.fs (splitext f).1) ∉ st.fs ∧
      (processFilePair ann st f n).kept = st.kept ++
        [backupPdfName (splitext f).1 (firstFreeSuffix st.fs (splitext f).1)] ∧
      backupPdfName (splitext f).1 (firstFreeSuffix st.fs (splitext f).1) ∈
        (processFilePair ann st f n).fs ∧
      ((splitext f).1 ++ ".skim" ∈ st.fs → (splitext f).1 ++ ".skim" ≠ f →
        backupSkimName (splitext f).1 (firstFreeSuffix st.fs (splitext f).1) ∈
          (processFilePair ann st f n).fs)) ∧
    (strContains f "_notes_" = false → ¬(n ≠ "" ∨ ann f = true) →
      processFilePair ann st f n = { st with fs := fsRemove st.fs f }) := by
  have hfresh : backupPdfName (splitext f).1 (firstFreeSuffix st.fs (splitext f).1) ∉
      st.fs := by
    obtain ⟨t, h1, h2, h3⟩ := hfree
    exact bumpSuffix_spec st.fs (splitext f).1 (st.fs.length + 1) 1 ⟨t, h1, by omega, h3⟩
  refine ⟨?_, ?_, ?_⟩
  · intro hn
    unfold processFilePair
    rw [if_pos hpdf, if_pos hn]
  · intro hn hann
    refine ⟨hfresh, ?_, ?_, ?_⟩
    · unfold processFilePair
      rw [if_pos hpdf, if_neg (by rw [hn]; exact Bool.false_ne_true), if_pos hann]
    · unfold processFilePair
      rw [if_pos hpdf, if_neg (by rw [hn]; exact Bool.false_ne_true), if_pos hann]
      exact mem_skimStep _ _ _ _
        (mem_fsRename_new st.fs f (backupPdfName (splitext f).1
          (firstFreeSuffix st.fs (splitext f).1)))
        (backupPdfName_ne_skim (splitext f).1 (firstFreeSuffix st.fs (splitext f).1))
    · intro hskim hskimf
      unfold processFilePair
      rw [if_pos hpdf, if_neg (by rw [hn]; exact Bool.false_ne_true), if_pos hann]
      exact mem_skimStep_new _ _ _
        (mem_fsRename_other st.fs f _ _ hskim hskimf)
  · intro hn hann
    unfold processFilePair
    rw [if_pos hpdf, if_neg (by rw [hn]; exact Bool.false_ne_true), if_neg hann]

/-- Witness for C5: a concrete annotated PDF with its sidecar is renamed to
the fresh backup name and that name is returned. -/
theorem safe_delete_step_amended_witness :
    backupPdfName "/x/f" 1 ∉ (["/x/f.pdf", "/x/f.skim"] : List String) ∧
    (processFilePair (fun _ => false) ⟨["/x/f.pdf", "/x/f.skim"], []⟩
      "/x/f.pdf" "note").kept = [] ++ [backupPdfName "/x/f" 1] :=
  have h := (safe_delete_step_amended (fun _ => false) ⟨["/x/f.pdf", "/x/f.skim"], []⟩
    "/x/f.pdf" "note" (by decide) ⟨1, by decide, by decide, by decide⟩).2.1
    (by decide) (Or.inl (by decide))
  ⟨h.1, h.2.1⟩

/-- C6 counterexample: for the preprint-style identifier
`2019arXiv190404507R` the first download attempted is the publisher
(`PUB_PDF`) URL, not the eprint one: the loop order ignores the
identifier, so "eprint first for preprint ids" fails. -/
theorem pdf_order_counterexample :
    strContains "2019arXiv190404507R" "arXiv" = true ∧
    (process_pdf "2019arXiv190404507R" ⟨"None", "None", "22"⟩ (fun _ => false)).1.head? =
      some (FetchEvent.download
        "https://ui.adsabs.harvard.edu/link_gateway/2019arXiv190404507R/PUB_PDF") := by
  decide

/-- C6 amended: `process_pdf` tries the sources strictly sequentially in
the fixed configured order publisher, eprint, ads-scan — for every
identifier, preprint or not (the eprint-first URL selection is computed
and immediately overwritten by the loop) — stops at the first source whose
download validates as a PDF, and returns the last attempted temp file path
together with the validation flag, false when all sources are
exhausted. -/
theorem pdf_fallback_amended (identifier : String) (prefs : ProxyPrefs)
    (v : String → Bool) :
    process_pdf identifier prefs v =
      (let gw := get_gateway identifier gatewayDefault
       let proxyOn := (prefs.ssh_user != "None") && (prefs.ssh_server != "None")
       let ev := fun u => FetchEvent.download u ::
         (if proxyOn then [FetchEvent.proxyFetch u] else [])
       if v (gw "pub_pdf") then (ev (gw "pub_pdf"), "/tmp/tmp0.pdf", true)
       else if v (gw "eprint_pdf") then
         (ev (gw "pub_pdf") ++ ev (gw "eprint_pdf"), "/tmp/tmp1.pdf", true)
       else if v (gw "ads_pdf") then
         (ev (gw "pub_pdf") ++ (ev (gw "eprint_pdf") ++ ev (gw "ads_pdf")),
           "/tmp/tmp2.pdf", true)
       else
         (ev (gw "pub_pdf") ++ (ev (gw "eprint_pdf") ++ ev (gw "ads_pdf")),
           "/tmp/tmp2.pdf", false)) := by
  by_cases h1 : v (get_gateway identifier gatewayDefault "pub_pdf")
  · simp [process_pdf, fetchLoop, h1]
    rfl
  · by_cases h2 : v (get_gateway identifier gatewayDefault "eprint_pdf")
    · simp [process_pdf, fetchLoop, h1, h2]
      rfl
    · by_cases h3 : v (get_gateway identifier gatewayDefault "ads_pdf")
      · simp [process_pdf, fetchLoop, h1, h2, h3]
        rfl
      · simp [process_pdf, fetchLoop, h1, h2, h3]
        rfl

/-- C7 counterexample: a non-validated fetch with an empty `doi` field
attaches nothing at all — the claimed landing-page URL attachment does not
happen, because the code can only attach the local temp path and only when
that path contains `http`. -/
theorem attach_no_url_counterexample :
    attachOps "pub-1" "/tmp/tmp0.pdf" false "" = [] := by
  decide

/-- C7 amended: during Replacing the fetched file is linked (and
auto-filed) iff its name ends in `.pdf` and it validated; otherwise the
returned file path itself — not a landing-page URL — is added as a linked
URL iff it contains `http` and the new entry's `doi` field is empty; for
the `.pdf` temp paths `process_pdf` produces, the URL branch never
fires. -/
theorem attach_amended (pub f : String) (status : Bool) (doi : String) :
    (StoreOp.addLinkedFileBeginning pub f ∈ attachOps pub f status doi ↔
      (strEndsWith f ".pdf" = true ∧ status = true)) ∧
    (StoreOp.addLinkedUrlEnd pub f ∈ attachOps pub f status doi ↔
      (¬(strEndsWith f ".pdf" = true ∧ status = true) ∧
        strContains f "http" = true ∧ doi = "")) := by
  unfold attachOps
  by_cases hA : (strEndsWith f ".pdf" && status) = true
  · rw [if_pos hA]
    rw [Bool.and_eq_true] at hA
    constructor
    · exact ⟨fun _ => hA, fun _ => List.mem_cons_self _ _⟩
    · constructor
      · intro hmem
        rcases List.mem_cons.mp hmem with h | h
        · exact StoreOp.noConfusion h
        · exact StoreOp.noConfusion (List.mem_singleton.mp h)
      · rintro ⟨hn, _⟩
        exact absurd hA hn
  · rw [if_neg hA]
    rw [Bool.and_eq_true] at hA
    by_cases hB : (strContains f "http" && (doi == "")) = true
    · rw [if_pos hB]
      rw [Bool.and_eq_true, beq_iff_eq] at hB
      constructor
      · constructor
        · intro hmem
          exact StoreOp.noConfusion (List.mem_singleton.mp hmem)
        · intro hx
          exact absurd hx hA
      · exact ⟨fun _ => ⟨hA, hB.1, hB.2⟩, fun _ => List.mem_singleton.mpr rfl⟩
    · rw [if_neg hB]
      rw [Bool.and_eq_true, beq_iff_eq] at hB
      constructor
      · constructor
        · intro hmem
          cases hmem
        · intro hx
          exact absurd hx hA
      · constructor
        · intro hmem
          cases hmem
        · rintro ⟨_, hc, hd⟩
          exact absurd ⟨hc, hd⟩ hB

/-- C8 counterexample: with `ssh_user` and `ssh_server` configured but
`ssh_port` left at the unset sentinel `"None"`, the relay is still engaged
for every download attempt — the port never enters the decision, so "all
three required" fails. -/
theorem proxy_port_unchecked_counterexample :
    (ProxyPrefs.mk "user" "server" "None").ssh_port = "None" ∧
    (process_pdf "2001TestBibcode" (ProxyPrefs.mk "user" "server" "None")
      (fun _ => false)).1.any isProxyFetch = true := by
  decide

/-- C8 amended: a `process_pdf` run performs relay fetches exactly when
both `ssh_user` and `ssh_server` differ from the unset sentinel `"None"`;
`ssh_port` is passed to the ssh command but never checked, and when the
relay is off every download is local. -/
theorem proxy_relay_amended (identifier : String) (prefs : ProxyPrefs)
    (v : String → Bool) :
    (process_pdf identifier prefs v).1.any isProxyFetch =
      ((prefs.ssh_user != "None") && (prefs.ssh_server != "None")) := by
  cases hb : (prefs.ssh_user != "None") && (prefs.ssh_server != "None") <;>
  · by_cases h1 : v (get_gateway identifier gatewayDefault "pub_pdf")
    · simp [process_pdf, fetchLoop, hb, h1, isProxyFetch]
    · by_cases h2 : v (get_gateway identifier gatewayDefault "eprint_pdf")
      · simp [process_pdf, fetchLoop, hb, h1, h2, isProxyFetch]
      · by_cases h3 : v (get_gateway identifier gatewayDefault "ads_pdf")
        · simp [process_pdf, fetchLoop, hb, h1, h2, h3, isProxyFetch]
        · simp [process_pdf, fetchLoop, hb, h1, h2, h3, isProxyFetch]

/-- C9 counterexample: a run whose imported entry carries two url-type
fields with the same value ends with that URL linked twice — the presence
check consults only the snapshot taken before the loop, so "adding the
same linked URL twice leaves exactly one copy" fails. -/
theorem url_duplicate_counterexample :
    ((process_token "2001TestBibcode" [⟨["Title A"], ["Smith, J."], some "An abstract."⟩]
        "bib" storeEmptyFix (fun _ => false) [] ("/tmp/tmp0.pdf", false) importedUrlFix
        "pub-1" "key-1").final).linkedUrls = ["http://x", "http://x"] ∧
    ¬(((process_token "2001TestBibcode" [⟨["Title A"], ["Smith, J."], some "An abstract."⟩]
        "bib" storeEmptyFix (fun _ => false) [] ("/tmp/tmp0.pdf", false) importedUrlFix
        "pub-1" "key-1").final).linkedUrls.count "http://x" = 1) := by
  decide

theorem restoreFieldOps_no_entry_change (pub genKey : String)
    (kf : List (String × String)) (nf : List String) (st : PubState) :
    (restoreFieldOps pub kf nf).foldl (applyPubOp genKey) st = st := by
  unfold restoreFieldOps
  rw [List.foldl_map]
  induction (kf.filter fun kv => kv.1 != "BibDeskAnnotation").filter
      (fun kv => !(nf.contains kv.1)) generalizing st with
  | nil => rfl
  | cons x xs ih =>
    rw [List.foldl_cons]
    exact ih st

/-- C9 amended: the Replacing URL loop is presence-checked against the
snapshot of linked URLs taken before the loop, so a URL already linked is
never added again; the Restoring field loop only emits commands for
preserved names absent from the new entry and — its commands being
document-level — never changes the entry's field map, so running it twice
cannot produce duplicate fields; group additions, however, are emitted for
every preserved group without any membership check (and a URL occurring
twice in the collected list is inserted twice, as the counterexample
shows). -/
theorem presence_checks_amended (pub genKey : String) (urls urlspub : List String)
    (kf : List (String × String)) (nf : List String) (kg : List String) (st : PubState) :
    (∀ u ∈ urlspub, StoreOp.addLinkedUrlEnd pub u ∉ urlLoopOps pub urls urlspub) ∧
    ((restoreFieldOps pub kf nf).foldl (applyPubOp genKey) st = st) ∧
    (∀ g ∈ kg, StoreOp.addToGroup pub g ∈ groupRestoreOps pub kg) := by
  refine ⟨?_, restoreFieldOps_no_entry_change pub genKey kf nf st, ?_⟩
  · intro u hu hmem
    unfold urlLoopOps at hmem
    rcases List.mem_map.mp hmem with ⟨u2, hu2, heq⟩
    have hfilt := List.mem_filter.mp hu2
    injection heq with _ heq2
    rw [heq2] at hfilt
    rw [Bool.not_eq_eq_eq_not, Bool.not_true] at hfilt
    exact absurd (List.elem_iff.mpr hu) (by simpa using hfilt.2)
  · intro g hg
    unfold groupRestoreOps
    rw [if_neg ?_]
    · exact List.mem_map.mpr ⟨g, hg, rfl⟩
    · rintro rfl
      exact List.not_mem_nil g hg

/-- Witness for C9: a URL already linked is skipped, a concrete
field-restoration pass leaves the entry unchanged, and a preserved group
is re-added. -/
theorem presence_checks_amended_witness :
    StoreOp.addLinkedUrlEnd "pub-1" "http://x" ∉
      urlLoopOps "pub-1" ["http://x", "http://y"] ["http://x"] ∧
    ((restoreFieldOps "pub-1" [("Keywords", "stars")] []).foldl
      (applyPubOp "key-1") emptyPub = emptyPub) ∧
    StoreOp.addToGroup "pub-1" "Reading List" ∈ groupRestoreOps "pub-1" ["Reading List"] :=
  have h := presence_checks_amended "pub-1" "key-1" ["http://x", "http://y"] ["http://x"]
    [("Keywords", "stars")] [] ["Reading List"] emptyPub
  ⟨h.1 "http://x" (by decide), h.2.1, h.2.2 "Reading List" (by decide)⟩

/-- Witness for C6: a concrete exhausted run returns the third temp file
and a false validation flag. -/
theorem pdf_fallback_amended_witness :
    (process_pdf "2001TestBibcode" ⟨"None", "None", "22"⟩ (fun _ => false)).2.2 = false := by
  rw [pdf_fallback_amended]
  rfl

/-- Witness for C7: a validated `.pdf` file is linked. -/
theorem attach_amended_witness :
    StoreOp.addLinkedFileBeginning "pub-1" "/tmp/tmp0.pdf" ∈
      attachOps "pub-1" "/tmp/tmp0.pdf" true "" :=
  (attach_amended "pub-1" "/tmp/tmp0.pdf" true "").1.mpr ⟨by decide, rfl⟩

/-- Witness for C8: with user and server set the run relays. -/
theorem proxy_relay_amended_witness :
    (process_pdf "2001TestBibcode" ⟨"u", "s", "22"⟩ (fun _ => false)).1.any
      isProxyFetch = true := by
  rw [proxy_relay_amended]
  rfl

end Ads2BibDesk
